import Mathlib

/-!
# Verification of the npyscreen `NPSAppManaged` navigation controller

Shallow embedding of `npyscreen/apNPSApplicationManaged.py` (class
`NPSAppManaged`) and `npyscreen/selectone.py` (class `SelectOne`), with
theorems settling the specification claims about screen registration,
the visit-history stack, the main loop, forced screen switching and
single-selection value normalization.

Modelling conventions:
* Form identifiers are `String`s.  Python `None` is modelled by `Option`:
  `NEXT_ACTIVE_FORM` is an `Option FormId` (`none` = Python `None`,
  `some ""` = the empty string, which the loop also treats as a stop).
* `_FORM_VISIT_LIST` is a `List FormId`, oldest entry first.  Python
  `list.append` adds at the end and `list.pop()` removes the last
  element; these become `l ++ [x]`, `l.dropLast` with `l.getLast?`.
  Python's `pop()` on an empty list raises `IndexError` and leaves the
  list unchanged.
* Python exceptions are modelled by `Except PyError` where the claims
  need them; a `try/except` that swallows an error becomes an explicit
  handler.
* Form instances are identified by natural numbers allocated from a
  monotone counter carried in the application state; a deferred
  (`[form_class, args, keywords]`) registry entry allocates a fresh
  number at every resolution, a live entry always yields its stored
  number.
-/

namespace Npyscreen

abbrev FormId := String

/-- Python exception kinds that the modelled code can raise. -/
inductive PyError where
  | keyError
  | attributeError
  | indexError
  | typeError
  deriving Repr, DecidableEq

/-! ## `set_next_form_previous` (history back-navigation)

The method reads `_THIS_FORM.FORM_NAME`, `_FORM_VISIT_LIST` and
`NEXT_ACTIVE_FORM`, and writes `_FORM_VISIT_LIST` and
`NEXT_ACTIVE_FORM`; `PrevState` is that projection of the controller
state. -/

structure PrevState where
  visitList : List FormId
  nextActiveForm : Option FormId
  currentFormName : FormId
  deriving Repr, DecidableEq

/-- `NPSAppManaged.set_next_form`: `self.NEXT_ACTIVE_FORM = form_id`. -/
def set_next_form (s : PrevState) (fid : Option FormId) : PrevState :=
  { s with nextActiveForm := fid }

/-- `NPSAppManaged.set_next_form_previous(backup)`.

The Python body runs inside `try: ... except IndexError:
self.set_next_form(backup)`.  An `IndexError` can come from
`self._FORM_VISIT_LIST[-1]` (empty list: the `none` branch of the outer
match) or from the `self._FORM_VISIT_LIST.pop()` argument of
`set_next_form` (empty list after the first pop: the inner `none`
branch).  A failed `pop()` does not change the list. -/
def set_next_form_previous (s : PrevState) (backup : FormId) : PrevState :=
  match s.visitList.getLast? with
  | none => set_next_form s (some backup)
  | some top =>
    let s1 := if s.currentFormName = top
              then { s with visitList := s.visitList.dropLast }
              else s
    if some s1.currentFormName = s1.nextActiveForm then
      match s1.visitList.getLast? with
      | none => set_next_form s1 (some backup)
      | some prev =>
        set_next_form { s1 with visitList := s1.visitList.dropLast } (some prev)
    else s1

/-- Modelled from the spec's wording of the `switch_previous` algorithm:
stage 1 pops the top of history when it equals the current screen;
stage 2, guarded by `next_active` still naming the current screen, pops
the new top and requests it, falling back to `backup` only when the
history is empty at that pop. -/
def spec_switch_previous (s : PrevState) (backup : FormId) : PrevState :=
  let s1 :=
    match s.visitList.getLast? with
    | some top =>
      if s.currentFormName = top
      then { s with visitList := s.visitList.dropLast }
      else s
    | none => s
  if some s1.currentFormName = s1.nextActiveForm then
    match s1.visitList.getLast? with
    | some prev =>
      { s1 with visitList := s1.visitList.dropLast, nextActiveForm := some prev }
    | none => { s1 with nextActiveForm := some backup }
  else s1

/-- Modelled from the spec, amended: when the history is already empty at
the very first inspection of its top, the backup is requested
immediately, regardless of `next_active`; otherwise the two-stage
algorithm of `spec_switch_previous` runs unchanged. -/
def spec_switch_previous_amended (s : PrevState) (backup : FormId) : PrevState :=
  if s.visitList.isEmpty then { s with nextActiveForm := some backup }
  else spec_switch_previous s backup

theorem visitList_getLast?_none {s : PrevState}
    (h : s.visitList.getLast? = none) : s.visitList = [] :=
  List.getLast?_eq_none_iff.mp h

/-- C1: the code's `set_next_form_previous` does not follow the spec's
two-stage algorithm at every state: with empty history and a pending
request for a different screen (`next_active = A ≠ B = current`), the
spec's algorithm leaves the request untouched, but the code requests the
backup (`MAIN`). -/
theorem set_next_form_previous_deviates_from_spec :
    set_next_form_previous ⟨[], some "A", "B"⟩ "MAIN"
      ≠ spec_switch_previous ⟨[], some "A", "B"⟩ "MAIN" := by
  decide

/-- C1 (amended): `set_next_form_previous` follows the two-stage pop
algorithm with the emptiness fallback moved to the first inspection of
the history top: an empty history requests the backup unconditionally;
otherwise the current screen's own top entry is popped when present, and
if `next_active` still names the current screen the new top is popped
and requested, the backup being requested when that pop finds the
history empty.  In particular, from screen `B` with history `[A, B]` and
`next_active = B` it requests `A` leaving history empty, and with empty
history and backup `MAIN` it requests `MAIN`. -/
theorem set_next_form_previous_two_stage :
    (∀ (s : PrevState) (backup : FormId),
      set_next_form_previous s backup = spec_switch_previous_amended s backup) ∧
    set_next_form_previous ⟨["A", "B"], some "B", "B"⟩ "MAIN"
      = ⟨[], some "A", "B"⟩ ∧
    set_next_form_previous ⟨[], some "B", "B"⟩ "MAIN"
      = ⟨[], some "MAIN", "B"⟩ := by
  refine ⟨fun s backup => ?_, by decide, by decide⟩
  cases h : s.visitList.getLast? with
  | none =>
    have hnil : s.visitList = [] := visitList_getLast?_none h
    simp [set_next_form_previous, spec_switch_previous_amended, h, hnil,
      set_next_form]
  | some top =>
    have hne : s.visitList ≠ [] := by
      intro hnil
      rw [hnil] at h
      simp at h
    simp only [set_next_form_previous, spec_switch_previous_amended,
      spec_switch_previous, h, List.isEmpty_iff, hne, if_false, set_next_form]
    split_ifs <;>
      first
        | rfl
        | (split <;> rename_i hinner <;> simp [hinner])

/-! ## Registry, instance resolution and the main loop

`_Forms` maps identifiers to either a live form instance
(`register_form` / `add_form`) or a `[form_class, args, keywords]` list
(`add_form_class`).  Form instances are identified by `Nat`s drawn from
the `counter` field; the behavioural capabilities the loop probes with
`hasattr` are recorded in `FormCaps`. -/

structure FormCaps where
  hasActivate : Bool
  hasBeforeEditing : Bool
  hasAfterEditing : Bool
  deriving Repr, DecidableEq

structure FormClass where
  caps : FormCaps
  deriving Repr, DecidableEq

inductive FormEntry where
  /-- A form instance stored by `register_form`; `hasParentApp` records
  whether the instance currently carries the `parentApp` attribute
  (set by `register_form`, deleted by `remove_form`). -/
  | live (inst : Nat) (caps : FormCaps) (hasParentApp : Bool)
  /-- A `[form_class, args, keywords]` list stored by `add_form_class`. -/
  | deferredEntry (cls : FormClass) (args : List Nat) (kwargs : List (String × Nat))
  deriving Repr, DecidableEq

def lookupForm : List (FormId × FormEntry) → FormId → Option FormEntry
  | [], _ => none
  | (k, v) :: rest, fid => if k = fid then some v else lookupForm rest fid

def eraseForm (forms : List (FormId × FormEntry)) (fid : FormId) :
    List (FormId × FormEntry) :=
  forms.filter (fun p => p.1 ≠ fid)

/-- Python dict assignment `self._Forms[form_id] = v`: unique keys. -/
def insertForm (forms : List (FormId × FormEntry)) (fid : FormId)
    (e : FormEntry) : List (FormId × FormEntry) :=
  (fid, e) :: eraseForm forms fid

/-- The `NPSAppManaged` state relevant to the registry and main-loop
claims (`_Forms`, `NEXT_ACTIVE_FORM`, `_FORM_VISIT_LIST`), plus the
fresh-instance counter of the embedding. -/
structure AppState where
  forms : List (FormId × FormEntry)
  nextActiveForm : Option FormId
  visitList : List FormId
  counter : Nat
  deriving Repr, DecidableEq

/-- `NPSAppManaged.add_form_class(form_id, form_class, *args, **keywords)`. -/
def add_form_class (s : AppState) (fid : FormId) (cls : FormClass)
    (args : List Nat) (kwargs : List (String × Nat)) : AppState :=
  { s with forms := insertForm s.forms fid (FormEntry.deferredEntry cls args kwargs) }

/-- `NPSAppManaged.register_form(form_id, fm)`: stores the instance and
sets its `parentApp` back-reference. -/
def register_form (s : AppState) (fid : FormId) (inst : Nat)
    (caps : FormCaps) : AppState :=
  { s with forms := insertForm s.forms fid (FormEntry.live inst caps true) }

/-- `NPSAppManaged.add_form(form_id, form_class, ...)`: constructs a fresh
instance (a new identity from the counter) and registers it. -/
def add_form (s : AppState) (fid : FormId) (cls : FormClass) :
    Nat × AppState :=
  (s.counter,
    register_form { s with counter := s.counter + 1 } fid s.counter cls.caps)

/-- `NPSAppManaged.remove_form(form_id)`: `del self._Forms[form_id].parentApp`
followed by `del self._Forms[form_id]`.  An unknown identifier raises
`KeyError` at the first subscript.  A deferred entry is a plain list, so
deleting its `parentApp` attribute raises `AttributeError` and the
binding is left in place; likewise a live instance whose `parentApp`
attribute is already gone. -/
def remove_form (s : AppState) (fid : FormId) : Except PyError AppState :=
  match lookupForm s.forms fid with
  | none => Except.error PyError.keyError
  | some (FormEntry.deferredEntry _ _ _) => Except.error PyError.attributeError
  | some (FormEntry.live _ _ false) => Except.error PyError.attributeError
  | some (FormEntry.live _ _ true) =>
    Except.ok { s with forms := eraseForm s.forms fid }

/-- The loop body's resolution of `NEXT_ACTIVE_FORM` against `_Forms`:
`self._Forms[...]` raises `KeyError` on an unknown identifier; a
`[form_class, args, keywords]` entry unpacks and a fresh instance is
constructed (`form_class(parent_app=self, *a, **k)`); a live instance
fails the unpacking with `TypeError`, which the `except TypeError`
handler turns into returning the stored instance unchanged. -/
def resolveForm (s : AppState) (fid : FormId) :
    Except PyError (Nat × FormCaps × AppState) :=
  match lookupForm s.forms fid with
  | none => Except.error PyError.keyError
  | some (FormEntry.live inst caps _) => Except.ok (inst, caps, s)
  | some (FormEntry.deferredEntry cls _ _) =>
    Except.ok (s.counter, cls.caps, { s with counter := s.counter + 1 })

/-- The history push of the loop body: append `NEXT_ACTIVE_FORM` unless
the list is non-empty with that identifier already last. -/
def pushVisit (l : List FormId) (fid : FormId) : List FormId :=
  if 0 < l.length then
    if l.getLast? = some fid then l else l ++ [fid]
  else l ++ [fid]

/-- Observable events of one `main()` run, in order. -/
inductive Event where
  | onStart
  /-- A screen was resolved and made current (`_THIS_FORM`). -/
  | activatedForm (fid : FormId) (inst : Nat)
  | resizeEv
  | activateEv
  | beforeEditingEv
  | editEv
  | afterEditingEv
  | mainLoopHook
  | cleanExit
  deriving Repr, DecidableEq

def isActivatedEv : Event → Bool
  | Event.activatedForm _ _ => true
  | _ => false

/-- The activation sequence of the loop body for a resolved form:
`activate` (preceded by `resize`) when present, otherwise
`before_editing` when present, then `resize`, `edit`, then
`after_editing` when present. -/
def activationEvents (caps : FormCaps) : List Event :=
  if caps.hasActivate then [Event.resizeEv, Event.activateEv]
  else
    (if caps.hasBeforeEditing then [Event.beforeEditingEv] else []) ++
      [Event.resizeEv, Event.editEv] ++
      (if caps.hasAfterEditing then [Event.afterEditingEv] else [])

/-- Stop condition of the `while` loop: it runs while `NEXT_ACTIVE_FORM`
is neither `""` nor `None`. -/
def isStop : Option FormId → Bool
  | none => true
  | some f => f = ""

/-- The loop-body state update once a screen has been resolved and its
activation has returned: the visit history has been pushed and the
screen has left `NEXT_ACTIVE_FORM` equal to `r`. -/
def stepState (s1 : AppState) (f : FormId) (r : Option FormId) : AppState :=
  { forms := s1.forms
    nextActiveForm := r
    visitList := pushVisit s1.visitList f
    counter := s1.counter }

/-- The `while` loop of `NPSAppManaged.main()`, driven by a script: the
`i`-th activated screen leaves `NEXT_ACTIVE_FORM` equal to the `i`-th
script entry when its activation returns (the net effect of the
`set_next_form` calls it made).  Returns the events emitted, the final
state, and whether the `while` condition became false (`true` = clean
exit, `cleanExit` emitted for `on_clean_exit`).  An unresolvable
identifier aborts with no further events (`KeyError` propagates, so
`on_clean_exit` never runs); an exhausted script cuts the trace short
(the real loop would re-enter the same screen indefinitely), also with
`false`. -/
def runLoop : AppState → List (Option FormId) → List Event × AppState × Bool
  | s, script =>
    match s.nextActiveForm with
    | none => ([Event.cleanExit], s, true)
    | some f =>
      if f = "" then ([Event.cleanExit], s, true)
      else
        match resolveForm s f with
        | Except.error _ => ([], s, false)
        | Except.ok (inst, caps, s1) =>
          match script with
          | [] =>
            (Event.activatedForm f inst ::
              (activationEvents caps ++ [Event.mainLoopHook]),
              { s1 with visitList := pushVisit s1.visitList f }, false)
          | r :: rest =>
            let out := runLoop (stepState s1 f r) rest
            (Event.activatedForm f inst ::
              (activationEvents caps ++ Event.mainLoopHook :: out.1),
              out.2)

/-- `NPSAppManaged.main()`: `on_start`, the loop, and (on clean exit,
inside `runLoop`'s stop case) `on_clean_exit`. -/
def mainRun (s : AppState) (script : List (Option FormId)) :
    List Event × AppState × Bool :=
  let out := runLoop s script
  (Event.onStart :: out.1, out.2)

/-! ## C2: the visit history never holds two consecutive equal entries -/

/-- No two consecutive entries of the list are equal. -/
def noConsecDup : List FormId → Bool
  | [] => true
  | [_] => true
  | a :: b :: rest => (a != b) && noConsecDup (b :: rest)

theorem noConsecDup_append_singleton :
    ∀ (l : List FormId) (x : FormId), noConsecDup l = true →
      l.getLast? ≠ some x → noConsecDup (l ++ [x]) = true
  | [], x, _, _ => rfl
  | [a], x, _, hx => by
    have hax : a ≠ x := by
      intro he
      exact hx (by simp [he])
    simp [noConsecDup, hax]
  | a :: b :: rest, x, h, hx => by
    have hh := h
    simp only [noConsecDup, Bool.and_eq_true] at hh
    have htail : noConsecDup ((b :: rest) ++ [x]) = true :=
      noConsecDup_append_singleton (b :: rest) x hh.2 (by
        simpa [List.getLast?_cons_cons] using hx)
    have hab : a ≠ b := by simpa using hh.1
    have htail' : noConsecDup (b :: (rest ++ [x])) = true := by
      simpa using htail
    show noConsecDup (a :: b :: (rest ++ [x])) = true
    simp [noConsecDup, hab, htail']

theorem pushVisit_noConsecDup (l : List FormId) (x : FormId)
    (h : noConsecDup l = true) : noConsecDup (pushVisit l x) = true := by
  unfold pushVisit
  split_ifs with h1 h2
  · exact h
  · exact noConsecDup_append_singleton l x h h2
  · have hnil : l = [] := by
      cases l with
      | nil => rfl
      | cons a t => simp at h1
    simp [hnil, noConsecDup]

theorem resolveForm_ok {s : AppState} {fid : FormId} {inst : Nat}
    {caps : FormCaps} {s1 : AppState}
    (h : resolveForm s fid = Except.ok (inst, caps, s1)) :
    s1.visitList = s.visitList ∧ s1.forms = s.forms ∧
      s1.nextActiveForm = s.nextActiveForm := by
  unfold resolveForm at h
  split at h
  · cases h
  · cases h
    exact ⟨rfl, rfl, rfl⟩
  · cases h
    exact ⟨rfl, rfl, rfl⟩

theorem runLoop_preserves_noConsecDup (script : List (Option FormId)) :
    ∀ s : AppState, noConsecDup s.visitList = true →
      noConsecDup ((runLoop s script).2.1.visitList) = true := by
  induction script with
  | nil =>
    intro s h
    rw [runLoop]
    cases hn : s.nextActiveForm with
    | none => exact h
    | some f =>
      by_cases hf : f = ""
      · simp [hf, h]
      · simp only [hf, if_false]
        cases hr : resolveForm s f with
        | error e => exact h
        | ok v =>
          obtain ⟨inst, caps, s1⟩ := v
          have hv := (resolveForm_ok hr).1
          simpa using pushVisit_noConsecDup s1.visitList f (hv ▸ h)
  | cons r rest ih =>
    intro s h
    rw [runLoop]
    cases hn : s.nextActiveForm with
    | none => exact h
    | some f =>
      by_cases hf : f = ""
      · simp [hf, h]
      · simp only [hf, if_false]
        cases hr : resolveForm s f with
        | error e => exact h
        | ok v =>
          obtain ⟨inst, caps, s1⟩ := v
          have hv := (resolveForm_ok hr).1
          have hpush : noConsecDup (pushVisit s1.visitList f) = true :=
            pushVisit_noConsecDup s1.visitList f (hv ▸ h)
          have hrec := ih (stepState s1 f r) hpush
          simpa using hrec

/-- A small registry used to run the loop on concrete inputs: two live
forms `A` and `B` with the plain edit cycle. -/
def demoState : AppState :=
  { forms := [("A", FormEntry.live 0 ⟨false, false, false⟩ true),
              ("B", FormEntry.live 1 ⟨false, false, false⟩ true)],
    nextActiveForm := some "A",
    visitList := [],
    counter := 2 }

/-- C2: every run of the main loop preserves freedom from consecutive
duplicate history entries (the loop body pushes `NEXT_ACTIVE_FORM` only
when it differs from the current top, or unconditionally on an empty
history), and activating `A`, `A`, `B` yields history `[A, B]` — both
through the raw push operation and through a concrete loop run. -/
theorem history_no_consecutive_duplicates :
    (∀ (s : AppState) (script : List (Option FormId)),
        noConsecDup s.visitList = true →
        noConsecDup ((runLoop s script).2.1.visitList) = true) ∧
    ["A", "A", "B"].foldl pushVisit [] = ["A", "B"] ∧
    (runLoop demoState [some "A", some "B", none]).2.1.visitList
      = ["A", "B"] := by
  refine ⟨fun s script h => runLoop_preserves_noConsecDup script s h, ?_, ?_⟩
  · rfl
  · rfl

/-- Witness for C2 at a concrete state and script. -/
theorem history_no_consecutive_duplicates_witness :
    noConsecDup ((runLoop demoState [some "A", some "B", none]).2.1.visitList)
      = true :=
  history_no_consecutive_duplicates.1 demoState [some "A", some "B", none] rfl

/-! ## C3: deferred entries yield fresh instances, live entries persist -/

/-- A deferred registration alongside the two live forms of `demoState`. -/
def demoDeferred : AppState :=
  add_form_class demoState "X" ⟨⟨false, false, false⟩⟩ [] []

/-- C3: resolving an identifier bound as a `[form_class, args, keywords]`
entry constructs a fresh instance each time — two successive resolutions
return the two distinct instance identities `counter` and `counter + 1`
— while resolving an identifier bound as a live instance returns the
stored instance identity and leaves the whole application state (hence
the stored instance's state) unchanged, so every later resolution
returns that same instance again. -/
theorem registry_resolution_semantics (s : AppState) (fid : FormId) :
    (∀ cls args kwargs,
        lookupForm s.forms fid
          = some (FormEntry.deferredEntry cls args kwargs) →
        resolveForm s fid
          = Except.ok (s.counter, cls.caps, { s with counter := s.counter + 1 }) ∧
        resolveForm { s with counter := s.counter + 1 } fid
          = Except.ok (s.counter + 1, cls.caps,
              { s with counter := s.counter + 2 }) ∧
        s.counter ≠ s.counter + 1) ∧
    (∀ inst caps hp,
        lookupForm s.forms fid = some (FormEntry.live inst caps hp) →
        resolveForm s fid = Except.ok (inst, caps, s)) := by
  constructor
  · intro cls args kwargs h
    refine ⟨by simp [resolveForm, h], by simp [resolveForm, h], by omega⟩
  · intro inst caps hp h
    simp [resolveForm, h]

/-- Witness for C3: the deferred form `X` resolves to fresh instance `2`,
the live form `A` resolves to its stored instance `0` with the state
untouched. -/
theorem registry_resolution_semantics_witness :
    resolveForm demoDeferred "X"
      = Except.ok (demoDeferred.counter, FormCaps.mk false false false,
          { demoDeferred with counter := demoDeferred.counter + 1 }) ∧
    resolveForm demoState "A"
      = Except.ok (0, FormCaps.mk false false false, demoState) :=
  ⟨((registry_resolution_semantics demoDeferred "X").1
      ⟨⟨false, false, false⟩⟩ [] [] rfl).1,
   (registry_resolution_semantics demoState "A").2
      0 ⟨false, false, false⟩ true rfl⟩

/-! ## C4: scripts ending in the stop sentinel terminate with one
`on_clean_exit` -/

/-- Every identifier the loop will be asked to activate is registered. -/
def scriptResolvable (s : AppState) (script : List (Option FormId)) : Prop :=
  ∀ f : FormId, (s.nextActiveForm = some f ∨ some f ∈ script) → f ≠ "" →
    (lookupForm s.forms f).isSome = true

theorem resolveForm_isSome {s : AppState} {fid : FormId}
    (h : (lookupForm s.forms fid).isSome = true) :
    ∃ inst caps s1, resolveForm s fid = Except.ok (inst, caps, s1) ∧
      s1.forms = s.forms := by
  cases hl : lookupForm s.forms fid with
  | none => rw [hl] at h; cases h
  | some e =>
    cases e with
    | live inst caps hp => exact ⟨inst, caps, s, by simp [resolveForm, hl], rfl⟩
    | deferredEntry cls args kwargs =>
      exact ⟨s.counter, cls.caps, { s with counter := s.counter + 1 },
        by simp [resolveForm, hl], rfl⟩

theorem activationEvents_count_cleanExit (caps : FormCaps) :
    (activationEvents caps).count Event.cleanExit = 0 := by
  rcases caps with ⟨a, b, c⟩
  cases a <;> cases b <;> cases c <;> rfl

theorem getLast?_getD_cons {α : Type} (r d : α) (rest : List α) :
    ((r :: rest).getLast?).getD d = (rest.getLast?).getD r := by
  cases rest with
  | nil => rfl
  | cons a t =>
    rw [List.getLast?_cons_cons]
    cases h : (a :: t).getLast? with
    | none => exact absurd (List.getLast?_eq_none_iff.mp h) (by simp)
    | some x => simp [h]

theorem getLast?_ne_nil {α : Type} {l : List α} {x : α}
    (h : l.getLast? = some x) : l ≠ [] := by
  intro hnil
  rw [hnil] at h
  cases h

theorem runLoop_clean (script : List (Option FormId)) :
    ∀ s : AppState,
      isStop (script.getLast?.getD s.nextActiveForm) = true →
      scriptResolvable s script →
      (runLoop s script).2.2 = true ∧
      (runLoop s script).1.count Event.cleanExit = 1 ∧
      (runLoop s script).1.getLast? = some Event.cleanExit := by
  induction script with
  | nil =>
    intro s hstop _
    rw [runLoop]
    cases hn : s.nextActiveForm with
    | none => exact ⟨rfl, rfl, rfl⟩
    | some f =>
      by_cases hf : f = ""
      · subst hf
        exact ⟨rfl, rfl, rfl⟩
      · rw [hn] at hstop
        simp [isStop, hf] at hstop
  | cons r rest ih =>
    intro s hstop hres
    rw [runLoop]
    cases hn : s.nextActiveForm with
    | none => exact ⟨rfl, rfl, rfl⟩
    | some f =>
      by_cases hf : f = ""
      · subst hf
        exact ⟨rfl, rfl, rfl⟩
      · simp only [hf, if_false]
        obtain ⟨inst, caps, s1, hr, hforms⟩ :=
          resolveForm_isSome (hres f (Or.inl hn) hf)
        rw [hr]
        have hstop' :
            isStop ((rest.getLast?).getD (stepState s1 f r).nextActiveForm)
              = true := by
          rw [hn] at hstop
          have h2 : ((r :: rest).getLast?).getD (some f) =
              (rest.getLast?).getD r := getLast?_getD_cons r (some f) rest
          rw [h2] at hstop
          exact hstop
        have hres' : scriptResolvable (stepState s1 f r) rest := by
          intro g hg hgne
          have hforms' : (stepState s1 f r).forms = s.forms := hforms
          rw [hforms']
          rcases hg with hg | hg
          · have : (stepState s1 f r).nextActiveForm = r := rfl
            rw [this] at hg
            exact hres g (Or.inr (by simp [hg])) hgne
          · exact hres g (Or.inr (by simp [hg])) hgne
        obtain ⟨hfin, hcount, hlast⟩ := ih (stepState s1 f r) hstop' hres'
        refine ⟨by simpa using hfin, ?_, ?_⟩
        · have h0 := activationEvents_count_cleanExit caps
          simp only [List.count_cons, List.count_append, h0]
          simp [hcount]
        · have hne : (runLoop (stepState s1 f r) rest).1 ≠ [] :=
            getLast?_ne_nil hlast
          have hsplit : (Event.activatedForm f inst ::
                (activationEvents caps ++ Event.mainLoopHook ::
                  (runLoop (stepState s1 f r) rest).1))
              = (Event.activatedForm f inst ::
                  (activationEvents caps ++ [Event.mainLoopHook])) ++
                (runLoop (stepState s1 f r) rest).1 := by simp
          simp only []
          rw [hsplit, List.getLast?_append_of_ne_nil _ hne]
          exact hlast

/-- C4: for every script of `set_next_form` requests (one per activated
screen) that ends with the stop sentinel (`None` or `""`), over a state
whose requested identifiers are all registered, `main()`'s loop
terminates (the `while` condition becomes false) and `on_clean_exit`
runs exactly once, as the final event after the loop exits. -/
theorem main_loop_terminates_clean_exit_once (s : AppState)
    (script : List (Option FormId))
    (hstop : isStop (script.getLast?.getD s.nextActiveForm) = true)
    (hres : scriptResolvable s script) :
    (mainRun s script).2.2 = true ∧
    (mainRun s script).1.count Event.cleanExit = 1 ∧
    (mainRun s script).1.getLast? = some Event.cleanExit := by
  obtain ⟨hfin, hcount, hlast⟩ := runLoop_clean script s hstop hres
  refine ⟨hfin, ?_, ?_⟩
  · simpa [mainRun, List.count_cons] using hcount
  · have hne : (runLoop s script).1 ≠ [] := getLast?_ne_nil hlast
    simpa [mainRun, List.getLast?_cons, List.getLastD_eq_getLast?,
      Option.getD_eq_iff] using hlast

/-- Witness for C4 at the concrete demo registry and a two-step script. -/
theorem main_loop_terminates_clean_exit_once_witness :
    (mainRun demoState [some "B", none]).2.2 = true ∧
    (mainRun demoState [some "B", none]).1.count Event.cleanExit = 1 ∧
    (mainRun demoState [some "B", none]).1.getLast?
      = some Event.cleanExit :=
  main_loop_terminates_clean_exit_once demoState [some "B", none] rfl (by
    intro f hf hne
    rcases hf with h | h
    · cases Option.some.inj h
      rfl
    · simp only [List.mem_cons, List.not_mem_nil, or_false] at h
      rcases h with h | h
      · cases Option.some.inj h
        rfl
      · cases h)

/-! ## C6: activation sequence and the main-loop hook -/

theorem activationEvents_count_mainLoopHook (caps : FormCaps) :
    (activationEvents caps).count Event.mainLoopHook = 0 := by
  rcases caps with ⟨a, b, c⟩
  cases a <;> cases b <;> cases c <;> rfl

theorem activationEvents_countP_activated (caps : FormCaps) :
    (activationEvents caps).countP isActivatedEv = 0 := by
  rcases caps with ⟨a, b, c⟩
  cases a <;> cases b <;> cases c <;> rfl

theorem runLoop_hook_per_iteration (script : List (Option FormId)) :
    ∀ s : AppState,
      (runLoop s script).1.count Event.mainLoopHook
        = (runLoop s script).1.countP isActivatedEv := by
  induction script with
  | nil =>
    intro s
    rw [runLoop]
    cases hn : s.nextActiveForm with
    | none => rfl
    | some f =>
      by_cases hf : f = ""
      · subst hf
        rfl
      · simp only [hf, if_false]
        cases hr : resolveForm s f with
        | error e => rfl
        | ok v =>
          obtain ⟨inst, caps, s1⟩ := v
          simp [List.count_cons, List.count_append, List.countP_cons,
            List.countP_append, activationEvents_count_mainLoopHook,
            activationEvents_countP_activated, isActivatedEv, List.count_singleton]
  | cons r rest ih =>
    intro s
    rw [runLoop]
    cases hn : s.nextActiveForm with
    | none => rfl
    | some f =>
      by_cases hf : f = ""
      · subst hf
        rfl
      · simp only [hf, if_false]
        cases hr : resolveForm s f with
        | error e => rfl
        | ok v =>
          obtain ⟨inst, caps, s1⟩ := v
          have hrec := ih (stepState s1 f r)
          simp [List.count_cons, List.count_append, List.countP_cons,
            List.countP_append, activationEvents_count_mainLoopHook,
            activationEvents_countP_activated, isActivatedEv, hrec]

theorem mainRun_no_hook_before_first_form (s : AppState)
    (script : List (Option FormId)) :
    Event.mainLoopHook ∉
      ((mainRun s script).1.takeWhile (fun e => !isActivatedEv e)) := by
  unfold mainRun
  rw [runLoop]
  cases hn : s.nextActiveForm with
  | none => simp [List.takeWhile, isActivatedEv]
  | some f =>
    by_cases hf : f = ""
    · subst hf
      simp [List.takeWhile, isActivatedEv]
    · simp only [hf, if_false]
      cases hr : resolveForm s f with
      | error e => simp [List.takeWhile, isActivatedEv]
      | ok v =>
        obtain ⟨inst, caps, s1⟩ := v
        cases script <;> simp [List.takeWhile, isActivatedEv]

/-- C6: a resolved screen with an `activate` method gets exactly `resize`
then `activate` (no before/after-edit hooks); otherwise the optional
`before_editing`, then the edit cycle, then the optional `after_editing`
run in that order; the `on_in_main_loop` hook fires exactly once per
loop iteration (one per activated screen), and never before the very
first screen of a run. -/
theorem activation_sequence_correct :
    (∀ caps : FormCaps, caps.hasActivate = true →
        activationEvents caps = [Event.resizeEv, Event.activateEv]) ∧
    (∀ caps : FormCaps, caps.hasActivate = false →
        activationEvents caps =
          (if caps.hasBeforeEditing then [Event.beforeEditingEv] else []) ++
            [Event.resizeEv, Event.editEv] ++
            (if caps.hasAfterEditing then [Event.afterEditingEv] else [])) ∧
    (∀ (s : AppState) (script : List (Option FormId)),
        (runLoop s script).1.count Event.mainLoopHook
          = (runLoop s script).1.countP isActivatedEv) ∧
    (∀ (s : AppState) (script : List (Option FormId)),
        Event.mainLoopHook ∉
          ((mainRun s script).1.takeWhile (fun e => !isActivatedEv e))) := by
  refine ⟨?_, ?_, ?_, ?_⟩
  · intro caps h
    simp [activationEvents, h]
  · intro caps h
    simp [activationEvents, h]
  · intro s script
    exact runLoop_hook_per_iteration script s
  · intro s script
    exact mainRun_no_hook_before_first_form s script

/-- Witness for C6 at concrete capability records: a self-driving screen
(with before/after hooks present but bypassed) and a standard
edit-cycle screen with both hooks. -/
theorem activation_sequence_correct_witness :
    activationEvents ⟨true, true, true⟩
      = [Event.resizeEv, Event.activateEv] ∧
    activationEvents ⟨false, true, true⟩
      = [Event.beforeEditingEv, Event.resizeEv, Event.editEv,
          Event.afterEditingEv] := by
  constructor
  · exact activation_sequence_correct.1 ⟨true, true, true⟩ rfl
  · have h := activation_sequence_correct.2.1 ⟨false, true, true⟩ rfl
    simpa using h

/-! ## C9: the empty string is also a stop sentinel -/

/-- C9: the `while` condition is `NEXT_ACTIVE_FORM != "" and
NEXT_ACTIVE_FORM is not None`, so a screen leaving `NEXT_ACTIVE_FORM`
equal to `""` ends the session exactly as `None` does: the loop exits
immediately and `on_clean_exit` runs, with identical traces. -/
theorem empty_string_stop_sentinel (s : AppState)
    (script : List (Option FormId)) :
    runLoop { s with nextActiveForm := some "" } script
      = ([Event.cleanExit], { s with nextActiveForm := some "" }, true) ∧
    runLoop { s with nextActiveForm := none } script
      = ([Event.cleanExit], { s with nextActiveForm := none }, true) := by
  constructor <;> (rw [runLoop]; try rfl)

/-! ## C5: `switch_form` clears edit flags and never raises

`switch_form(fmid)` sets `_THIS_FORM.editing = False`, calls
`set_next_form(fmid)` and then `switch_form_now()`, which again clears
the form's `editing` flag and then, inside two `try/except
(AttributeError, IndexError)` blocks, clears
`_widgets__[editw].editing` and `_widgets__[editw].entry_widget.editing`. -/

structure EntryWidget where
  editing : Bool
  deriving Repr, DecidableEq

/-- A widget of `_THIS_FORM._widgets__`; `entry_widget = none` models a
widget without the `entry_widget` attribute, `some` a labeled-field
composite's nested entry widget. -/
structure Widget where
  editing : Bool
  entry_widget : Option EntryWidget
  deriving Repr, DecidableEq

/-- The screen fields `switch_form` touches: the `editing` flag, the
`_widgets__` list (`none` models the attribute being absent) and the
focused-widget index `editw`. -/
structure FormW where
  editing : Bool
  widgets : Option (List Widget)
  editw : Nat
  deriving Repr, DecidableEq

/-- `self._THIS_FORM._widgets__[self._THIS_FORM.editw].editing = False`:
raises `AttributeError` without `_widgets__`, `IndexError` out of
range. -/
def tryClearWidget (f : FormW) : Except PyError FormW :=
  match f.widgets with
  | none => Except.error PyError.attributeError
  | some ws =>
    match ws[f.editw]? with
    | none => Except.error PyError.indexError
    | some w =>
      Except.ok
        { f with widgets := some (ws.set f.editw { w with editing := false }) }

/-- `..._widgets__[editw].entry_widget.editing = False`: additionally
raises `AttributeError` when the focused widget has no `entry_widget`. -/
def tryClearEntry (f : FormW) : Except PyError FormW :=
  match f.widgets with
  | none => Except.error PyError.attributeError
  | some ws =>
    match ws[f.editw]? with
    | none => Except.error PyError.indexError
    | some w =>
      match w.entry_widget with
      | none => Except.error PyError.attributeError
      | some e =>
        Except.ok
          { f with widgets := some (ws.set f.editw
              { w with entry_widget := some { e with editing := false } }) }

/-- `except (AttributeError, IndexError): pass` — those two errors leave
the form as it was; anything else propagates. -/
def catchAttrIndex (f : FormW) (r : Except PyError FormW) :
    Except PyError FormW :=
  match r with
  | Except.error PyError.attributeError => Except.ok f
  | Except.error PyError.indexError => Except.ok f
  | other => other

/-- `NPSAppManaged.switch_form_now` restricted to the current form. -/
def switch_form_now (f : FormW) : Except PyError FormW := do
  let f1 : FormW := { f with editing := false }
  let f2 ← catchAttrIndex f1 (tryClearWidget f1)
  let f3 ← catchAttrIndex f2 (tryClearEntry f2)
  Except.ok f3

/-- The current form together with `NEXT_ACTIVE_FORM`: the state
`switch_form` reads and writes. -/
structure EditState where
  thisForm : FormW
  nextActiveForm : Option FormId
  deriving Repr, DecidableEq

/-- `NPSAppManaged.switch_form(fmid)`: clear `editing`, `set_next_form`,
then `switch_form_now`. -/
def switch_form (st : EditState) (fid : FormId) : Except PyError EditState := do
  let st1 : EditState :=
    { thisForm := { st.thisForm with editing := false }
      nextActiveForm := some fid }
  let f2 ← switch_form_now st1.thisForm
  Except.ok { st1 with thisForm := f2 }

/-- The sub-widget currently holding input focus, when one exists. -/
def focusedWidget (f : FormW) : Option Widget :=
  match f.widgets with
  | none => none
  | some ws => ws[f.editw]?

/-- A labeled-field composite widget after both clears: widget and nested
entry widget no longer editing. -/
def clearedWidget : Widget := ⟨false, some ⟨false⟩⟩

/-- C5: `switch_form st fid` always returns (`Except.ok`; the two
focus-clear steps suppress `AttributeError`/`IndexError`), sets
`NEXT_ACTIVE_FORM` to `fid`, clears the form's `editing` flag and the
`editing` flag of the focused sub-widget, including a labeled-field
composite's nested entry widget; when no sub-widget has focus (or the
focused widget has no nested entry widget) the corresponding clear is
silently skipped. -/
theorem switch_form_clears_and_never_raises (st : EditState) (fid : FormId) :
    ∃ f' : FormW,
      switch_form st fid
        = Except.ok { thisForm := f', nextActiveForm := some fid } ∧
      f'.editing = false ∧
      (∀ w, focusedWidget st.thisForm = some w →
        ∃ w', focusedWidget f' = some w' ∧ w'.editing = false ∧
          (∀ e, w.entry_widget = some e →
            w'.entry_widget = some { editing := false }) ∧
          (w.entry_widget = none → w'.entry_widget = none)) ∧
      (focusedWidget st.thisForm = none →
        f' = { st.thisForm with editing := false }) := by
  rcases st with ⟨⟨ed, wso, ei⟩, na⟩
  cases wso with
  | none =>
    refine ⟨⟨false, none, ei⟩, rfl, rfl, ?_, ?_⟩
    · intro w hw
      cases hw
    · intro _
      rfl
  | some ws =>
    cases hget : ws[ei]? with
    | none =>
      refine ⟨⟨false, some ws, ei⟩, ?_, rfl, ?_, ?_⟩
      · simp [switch_form, switch_form_now, tryClearWidget, tryClearEntry,
          catchAttrIndex, hget, bind, Except.bind]
      · intro w hw
        rw [show focusedWidget ⟨ed, some ws, ei⟩ = ws[ei]? from rfl, hget] at hw
        cases hw
      · intro _
        rfl
    | some w =>
      have hlt : ei < ws.length := (List.getElem?_eq_some.mp hget).1
      have hlt1 : ei < (ws.set ei { w with editing := false }).length := by
        simpa using hlt
      have hget1 : (ws.set ei { w with editing := false })[ei]?
          = some { w with editing := false } := List.getElem?_set_self hlt
      cases hew : w.entry_widget with
      | none =>
        rw [hew] at hget1
        refine ⟨⟨false, some (ws.set ei { w with editing := false }), ei⟩,
          ?_, rfl, ?_, ?_⟩
        · simp [switch_form, switch_form_now, tryClearWidget, tryClearEntry,
            catchAttrIndex, hget, hget1, hew, bind, Except.bind]
        · intro w0 hw0
          rw [show focusedWidget ⟨ed, some ws, ei⟩ = ws[ei]? from rfl,
            hget] at hw0
          cases hw0
          refine ⟨{ w with editing := false }, ?_, rfl, ?_, ?_⟩
          · rw [hew]
            simpa [focusedWidget, hew] using hget1
          · intro e he
            rw [hew] at he
            cases he
          · intro _
            exact hew
        · intro hnone
          rw [show focusedWidget ⟨ed, some ws, ei⟩ = ws[ei]? from rfl,
            hget] at hnone
          cases hnone
      | some e =>
        rw [hew] at hget1
        have hget2 :
            ((ws.set ei { w with editing := false }).set ei clearedWidget)[ei]?
              = some clearedWidget :=
          List.getElem?_set_self hlt1
        refine ⟨⟨false, some ((ws.set ei { w with editing := false }).set ei
          clearedWidget), ei⟩, ?_, rfl, ?_, ?_⟩
        · simp [switch_form, switch_form_now, tryClearWidget, tryClearEntry,
            catchAttrIndex, hget, hget1, hew, clearedWidget, bind, Except.bind]
        · intro w0 hw0
          rw [show focusedWidget ⟨ed, some ws, ei⟩ = ws[ei]? from rfl,
            hget] at hw0
          cases hw0
          refine ⟨clearedWidget, ?_, rfl, ?_, ?_⟩
          · simpa [focusedWidget, hew] using hget2
          · intro e0 _
            rfl
          · intro hn
            rw [hew] at hn
            cases hn
        · intro hnone
          rw [show focusedWidget ⟨ed, some ws, ei⟩ = ws[ei]? from rfl,
            hget] at hnone
          cases hnone

/-- Witness for C5: a form focused on a labeled-field composite (widget 0
with a nested entry widget, both editing) and one with no `_widgets__`
attribute at all. -/
theorem switch_form_clears_and_never_raises_witness :
    (∃ f' : FormW,
      switch_form ⟨⟨true, some [⟨true, some ⟨true⟩⟩], 0⟩, some "B"⟩ "Y"
        = Except.ok { thisForm := f', nextActiveForm := some "Y" } ∧
      f'.editing = false ∧
      (∀ w, focusedWidget (⟨true, some [⟨true, some ⟨true⟩⟩], 0⟩ : FormW)
          = some w →
        ∃ w', focusedWidget f' = some w' ∧ w'.editing = false ∧
          (∀ e, w.entry_widget = some e →
            w'.entry_widget = some { editing := false }) ∧
          (w.entry_widget = none → w'.entry_widget = none)) ∧
      (focusedWidget (⟨true, some [⟨true, some ⟨true⟩⟩], 0⟩ : FormW) = none →
        f' = { editing := false, widgets := some [⟨true, some ⟨true⟩⟩],
               editw := 0 })) ∧
    (∃ f' : FormW,
      switch_form ⟨⟨true, none, 0⟩, none⟩ "Y"
        = Except.ok { thisForm := f', nextActiveForm := some "Y" } ∧
      f'.editing = false ∧
      (∀ w, focusedWidget (⟨true, none, 0⟩ : FormW) = some w →
        ∃ w', focusedWidget f' = some w' ∧ w'.editing = false ∧
          (∀ e, w.entry_widget = some e →
            w'.entry_widget = some { editing := false }) ∧
          (w.entry_widget = none → w'.entry_widget = none)) ∧
      (focusedWidget (⟨true, none, 0⟩ : FormW) = none →
        f' = { editing := false, widgets := none, editw := 0 })) :=
  ⟨switch_form_clears_and_never_raises ⟨⟨true, some [⟨true, some ⟨true⟩⟩], 0⟩,
      some "B"⟩ "Y",
   switch_form_clears_and_never_raises ⟨⟨true, none, 0⟩, none⟩ "Y"⟩

/-! ## C7: `remove_form` and unknown-identifier resolution -/

theorem lookupForm_eraseForm (forms : List (FormId × FormEntry))
    (fid : FormId) : lookupForm (eraseForm forms fid) fid = none := by
  induction forms with
  | nil => rfl
  | cons p rest ih =>
    by_cases h : p.1 = fid
    · simpa [eraseForm, List.filter_cons, h] using ih
    · simpa [eraseForm, List.filter_cons, h, lookupForm] using ih

/-- C7 counterexample: on a deferred `[form_class, args, keywords]`
binding, `remove_form` raises `AttributeError` (a plain list has no
`parentApp` attribute to delete) before the `del self._Forms[form_id]`
line runs, so the binding is not released and resolving the identifier
still succeeds. -/
theorem remove_form_deferred_counterexample :
    remove_form demoDeferred "X" = Except.error PyError.attributeError ∧
    (resolveForm demoDeferred "X").isOk = true :=
  ⟨rfl, rfl⟩

/-- C7 (amended): `remove_form` detaches and releases the binding of a
persistent instance (registered with its `parentApp` back-reference),
after which resolving that identifier fails with the unknown-screen
error (`KeyError`); resolving a never-registered identifier fails with
the same error; but on a deferred `[form_class, args, keywords]` entry
`remove_form` raises `AttributeError` and leaves the binding in
place. -/
theorem remove_form_semantics (s : AppState) (fid : FormId) :
    (∀ inst caps,
      lookupForm s.forms fid = some (FormEntry.live inst caps true) →
      remove_form s fid
          = Except.ok { s with forms := eraseForm s.forms fid } ∧
      resolveForm { s with forms := eraseForm s.forms fid } fid
          = Except.error PyError.keyError) ∧
    (lookupForm s.forms fid = none →
      resolveForm s fid = Except.error PyError.keyError) ∧
    (∀ cls args kwargs,
      lookupForm s.forms fid = some (FormEntry.deferredEntry cls args kwargs) →
      remove_form s fid = Except.error PyError.attributeError) := by
  refine ⟨?_, ?_, ?_⟩
  · intro inst caps h
    constructor
    · simp [remove_form, h]
    · simp [resolveForm, lookupForm_eraseForm]
  · intro h
    simp [resolveForm, h]
  · intro cls args kwargs h
    simp [remove_form, h]

/-- Witness for C7 (amended): removing the live form `A` releases its
binding and later resolution fails; resolving the never-registered `Z`
fails with the same error. -/
theorem remove_form_semantics_witness :
    (remove_form demoState "A"
        = Except.ok { demoState with forms := eraseForm demoState.forms "A" } ∧
      resolveForm { demoState with forms := eraseForm demoState.forms "A" } "A"
        = Except.error PyError.keyError) ∧
    resolveForm demoState "Z" = Except.error PyError.keyError :=
  ⟨(remove_form_semantics demoState "A").1 0 ⟨false, false, false⟩ rfl,
   (remove_form_semantics demoState "Z").2.1 rfl⟩

/-! ## C8: `SelectOne.update` normalizes the selection value -/

/-- A Python value held in `SelectOne.value`: `None`, a scalar without an
`append` attribute, or a list (which has one). -/
inductive PyValue where
  | pyNone
  | scalar (n : Int)
  | pyList (l : List Int)
  deriving Repr, DecidableEq

/-- `hasattr(value, "append")`. -/
def hasAppend : PyValue → Bool
  | PyValue.pyList _ => true
  | _ => false

/-- The normalization in `SelectOne.update`: values without an `append`
attribute are wrapped (`[self.value, ]`) or, for `None`, replaced by
`[]`.  (The last match arm is unreachable under the guard: a list has
`append`.) -/
def normalizeValue (v : PyValue) : PyValue :=
  if hasAppend v then v
  else
    match v with
    | PyValue.pyNone => PyValue.pyList []
    | PyValue.scalar n => PyValue.pyList [n]
    | PyValue.pyList l => PyValue.pyList l

structure SelectOneState where
  hidden : Bool
  value : PyValue
  deriving Repr, DecidableEq

namespace SelectOne

/-- `SelectOne.update`: when hidden, clear and return `False` without
drawing (second component `none`); otherwise normalize `self.value` and
call the parent `update`, which draws the rows against the normalized
value (second component `some` of the value the rows are drawn with). -/
def update (s : SelectOneState) : SelectOneState × Option PyValue :=
  if s.hidden then (s, none)
  else ({ s with value := normalizeValue s.value },
    some (normalizeValue s.value))

end SelectOne

/-- C8: on every non-hidden render, the value the rows are drawn against
is the normalized one, stored back into the state; it is always a
sequence: `None` becomes `[]`, a scalar `n` becomes `[n]`, and a value
that is already a sequence is kept as is. -/
theorem selectOne_update_normalizes (s : SelectOneState)
    (h : s.hidden = false) :
    (SelectOne.update s).2 = some (normalizeValue s.value) ∧
    (SelectOne.update s).1.value = normalizeValue s.value ∧
    (∃ l, normalizeValue s.value = PyValue.pyList l) ∧
    (s.value = PyValue.pyNone → normalizeValue s.value = PyValue.pyList []) ∧
    (∀ n, s.value = PyValue.scalar n →
      normalizeValue s.value = PyValue.pyList [n]) ∧
    (∀ l, s.value = PyValue.pyList l →
      normalizeValue s.value = PyValue.pyList l) := by
  refine ⟨?_, ?_, ?_, ?_, ?_, ?_⟩
  · simp [SelectOne.update, h]
  · simp [SelectOne.update, h]
  · cases hv : s.value with
    | pyNone => exact ⟨[], by simp [normalizeValue, hasAppend]⟩
    | scalar n => exact ⟨[n], by simp [normalizeValue, hasAppend]⟩
    | pyList l => exact ⟨l, by simp [normalizeValue, hasAppend]⟩
  · intro hv
    simp [normalizeValue, hv, hasAppend]
  · intro n hv
    simp [normalizeValue, hv, hasAppend]
  · intro l hv
    simp [normalizeValue, hv, hasAppend]

/-- Witness for C8 at a visible list with a scalar selection. -/
theorem selectOne_update_normalizes_witness :
    (SelectOne.update ⟨false, PyValue.scalar 5⟩).2
        = some (normalizeValue (PyValue.scalar 5)) ∧
    (SelectOne.update ⟨false, PyValue.scalar 5⟩).1.value
        = normalizeValue (PyValue.scalar 5) ∧
    (∃ l, normalizeValue (PyValue.scalar 5) = PyValue.pyList l) ∧
    (PyValue.scalar 5 = PyValue.pyNone →
      normalizeValue (PyValue.scalar 5) = PyValue.pyList []) ∧
    (∀ n, PyValue.scalar 5 = PyValue.scalar n →
      normalizeValue (PyValue.scalar 5) = PyValue.pyList [n]) ∧
    (∀ l, PyValue.scalar 5 = PyValue.pyList l →
      normalizeValue (PyValue.scalar 5) = PyValue.pyList l) :=
  selectOne_update_normalizes ⟨false, PyValue.scalar 5⟩ rfl

/-! ## C10: `remove_last_form_from_history` pops twice, non-atomically -/

/-- Python `list.pop()` on `_FORM_VISIT_LIST`: yields the last element
and the shortened list, or raises `IndexError` leaving the list
unchanged. -/
def popLast (l : List FormId) : Except PyError (FormId × List FormId) :=
  match l.getLast? with
  | none => Except.error PyError.indexError
  | some a => Except.ok (a, l.dropLast)

/-- `NPSAppManaged.remove_last_form_from_history`: two unconditional
`pop()`s.  Returns the escaping error, if any, together with the history
as left behind (the list is mutated in place before an uncaught
`IndexError` escapes). -/
def remove_last_form_from_history (l : List FormId) :
    Option PyError × List FormId :=
  match popLast l with
  | Except.error e => (some e, l)
  | Except.ok (_, l1) =>
    match popLast l1 with
    | Except.error e => (some e, l1)
    | Except.ok (_, l2) => (none, l2)

/-- C10: `remove_last_form_from_history` pops unconditionally twice: on a
history with fewer than two entries it raises `IndexError`; when the
history holds exactly one entry, that entry is removed before the error
is raised (the call fails yet the history is left empty — not atomic);
with two or more entries both last entries are removed and no error is
raised. -/
theorem remove_last_form_from_history_pops_twice (l : List FormId) :
    (l.length < 2 →
      (remove_last_form_from_history l).1 = some PyError.indexError) ∧
    (∀ a, l = [a] →
      remove_last_form_from_history l = (some PyError.indexError, [])) ∧
    (2 ≤ l.length →
      remove_last_form_from_history l = (none, l.dropLast.dropLast)) := by
  refine ⟨?_, ?_, ?_⟩
  · intro hlen
    match l, hlen with
    | [], _ => rfl
    | [a], _ => rfl
  · intro a ha
    subst ha
    rfl
  · intro hlen
    rcases List.eq_nil_or_concat' l with hnil | ⟨L, b, rfl⟩
    · subst hnil
      simp at hlen
    · rcases List.eq_nil_or_concat' L with hnil2 | ⟨M, c, rfl⟩
      · subst hnil2
        simp at hlen
      · simp [remove_last_form_from_history, popLast, List.getLast?_concat,
          List.dropLast_concat]

/-- Witness for C10: the one-entry history loses its entry and still
errors; a two-entry history empties cleanly. -/
theorem remove_last_form_from_history_pops_twice_witness :
    remove_last_form_from_history ["A"] = (some PyError.indexError, []) ∧
    remove_last_form_from_history ["A", "B"] = (none, []) := by
  constructor
  · exact (remove_last_form_from_history_pops_twice ["A"]).2.1 "A" rfl
  · have h := (remove_last_form_from_history_pops_twice ["A", "B"]).2.2
      (by decide)
    simpa using h

end Npyscreen
